import Mathlib

/-!
Verification development for the games.random backend
(`back-end/server/main.js` and the Express server file).

The JavaScript source is shallowly embedded:

* `stripMarkdownCodeBlocks` mirrors the chain of `String.replace` calls of
  `main.js` lines 47-56.  Each global regex replacement is modelled as a
  left-to-right scanner over `List Char` that, at every position, either
  consumes a leftmost match (emitting its replacement) and resumes after
  the match, or emits one character and advances — exactly the semantics
  of JavaScript `String.prototype.replace` with a `g` flag, which locates
  successive non-overlapping leftmost matches in the original string.
* `generateGame`, `chatWithCodeAssistant` and `generateGameStreaming`
  mirror the three exported service functions.  The remote Anthropic call
  is an explicit input (`ModelResult` / list of stream deltas plus a
  `StreamOutcome`), the mutable module variable `TheCleanCode` is threaded
  as explicit state, and the `onChunk` callback sink is modelled by the
  list of `StreamEvent`s delivered to it, in delivery order.
* `handleGenerate` and `handleGenerateStream` mirror the Express handlers
  `POST /api/generate` and `POST /api/generate-stream` of the server file.
-/

/-- JavaScript whitespace: the character class `\s` (also the set trimmed
by `String.prototype.trim`): space, tab, LF, VT, FF, CR, NBSP, Ogham space,
the U+2000—U+200A range, LS, PS, NNBSP, MMSP, ideographic space and BOM. -/
def isJsWs (c : Char) : Bool :=
  c = ' ' || c = '\t' || c = '\n' || c = '\x0b' || c = '\x0c' || c = '\r' ||
  c = '\u00A0' || c = '\u1680' || ('\u2000' ≤ c && c ≤ '\u200A') ||
  c = '\u2028' || c = '\u2029' || c = '\u202F' || c = '\u205F' ||
  c = '\u3000' || c = '\uFEFF'

/-- JavaScript line terminators: with the `m` flag, `^` matches just after
one of these and `$` matches just before one. -/
def isLineTerm (c : Char) : Bool :=
  c = '\n' || c = '\r' || c = '\u2028' || c = '\u2029'

/-- Case-insensitive literal match (the `i` flag on an ASCII alternative):
if `l` starts with `pat` up to ASCII lowercasing, return the remainder. -/
def ciMatch? (pat : List Char) (l : List Char) : Option (List Char) :=
  match pat, l with
  | [], rest => some rest
  | _ :: _, [] => none
  | p :: ps, c :: cs => if c.toLower = p then ciMatch? ps cs else none

/-- After an opening fence "```" was consumed: consume the optional
language tag — the alternatives `javascript|js|typescript|ts` are tried in
the regex's order, first match wins — and then the greedy `\s*` run. -/
def fenceTail (l : List Char) : List Char :=
  let afterTag :=
    match ciMatch? ['j','a','v','a','s','c','r','i','p','t'] l with
    | some r => r
    | none =>
      match ciMatch? ['j','s'] l with
      | some r => r
      | none =>
        match ciMatch? ['t','y','p','e','s','c','r','i','p','t'] l with
        | some r => r
        | none =>
          match ciMatch? ['t','s'] l with
          | some r => r
          | none => l
  afterTag.dropWhile isJsWs

/-- One attempted match of ```` /```(?:javascript|js|typescript|ts)?\s*/gi ````
at the current position: `(emitted text, rest of input, next line-start
state)`.  The state is unused by this pattern. -/
def fenceOpenM : Bool → List Char → Option (List Char × List Char × Bool)
  | _, '`' :: '`' :: '`' :: rest => some ([], fenceTail rest, false)
  | _, _ => none

/-- One attempted match of `/\s*```/g` at the current position.  A match
exists exactly when the maximal whitespace run starting here is followed
by three backticks (backticks are not whitespace, so the greedy `\s*`
cannot backtrack to any other split). -/
def fenceCloseM : Bool → List Char → Option (List Char × List Char × Bool)
  | _, l =>
    match l.dropWhile isJsWs with
    | '`' :: '`' :: '`' :: rest => some ([], rest, false)
    | _ => none

/-- One attempted match of `/\*\*([^*]+)\*\*/g` at the current position:
two asterisks, a maximal nonempty run of non-asterisks (the only split the
greedy `[^*]+` can end at and still see an asterisk), and two asterisks;
the replacement `$1` emits the run. -/
def boldM : Bool → List Char → Option (List Char × List Char × Bool)
  | _, '*' :: '*' :: rest =>
    let body := rest.takeWhile fun c => c ≠ '*'
    if body.isEmpty then none
    else
      match rest.dropWhile fun c => c ≠ '*' with
      | '*' :: '*' :: rest2 => some (body, rest2, false)
      | _ => none
  | _, _ => none

/-- One attempted match of `/^---+$/gm`: only at a line start, a run of at
least three hyphens whose end is the end of input or a line terminator.
The replacement is empty; the position after the match sits on a hyphen's
successor, never a fresh line start. -/
def ruleM : Bool → List Char → Option (List Char × List Char × Bool)
  | false, _ => none
  | true, l =>
    let hy := l.takeWhile fun c => c = '-'
    let rest := l.dropWhile fun c => c = '-'
    if 3 ≤ hy.length &&
        (match rest.head? with
         | none => true
         | some c => isLineTerm c) then
      some ([], rest, false)
    else none

/-- One attempted match of `/^#+\s*/gm`: only at a line start, a run of at
least one `#` and then the greedy `\s*` (which may swallow line
terminators).  The next position is a line start exactly when the last
whitespace character consumed is a line terminator. -/
def headerM : Bool → List Char → Option (List Char × List Char × Bool)
  | false, _ => none
  | true, '#' :: rest =>
    let afterHash := rest.dropWhile fun c => c = '#'
    let ws := afterHash.takeWhile isJsWs
    let rest2 := afterHash.dropWhile isJsWs
    let st2 :=
      match ws.getLast? with
      | some c => isLineTerm c
      | none => false
    some ([], rest2, st2)
  | true, _ => none

/-- Generic left-to-right global-replace scanner.  `f` attempts a match at
the current position (given the current line-start state); on a match the
replacement is emitted and scanning resumes after the match with the state
the matcher reports, otherwise one character is emitted and the state
updated by `upd`.  Every matcher above consumes at least one character, so
fuel equal to the input length always suffices; the fuel-exhausted arm is
never reached with a nonempty input. -/
def scanGo (f : Bool → List Char → Option (List Char × List Char × Bool))
    (upd : Char → Bool) : Nat → Bool → List Char → List Char
  | 0, _, l => l
  | _ + 1, _, [] => []
  | fuel + 1, st, c :: rest =>
    match f st (c :: rest) with
    | some (out, rest2, st2) => out ++ scanGo f upd fuel st2 rest2
    | none => c :: scanGo f upd fuel (upd c) rest

/-- Run a scanner over a whole input, starting at a line start. -/
def runScan (f : Bool → List Char → Option (List Char × List Char × Bool))
    (upd : Char → Bool) (st : Bool) (l : List Char) : List Char :=
  scanGo f upd l.length st l

/-- State update when one character is emitted: a position is a line start
exactly when the previous character is a line terminator. -/
def updLine (c : Char) : Bool := isLineTerm c

/-- State update for the patterns that do not use the line-start state. -/
def updAny (_ : Char) : Bool := false

/-- `/\n{3,}/g → "\n\n"` as a one-pass filter: a newline is dropped exactly
when at least two newlines immediately precede it, which keeps the first
two newlines of every maximal run and drops the rest — the same output as
replacing every maximal run of three or more newlines by two.  `k` counts
the immediately preceding consecutive newlines, capped at 2. -/
def collapseFrom : Nat → List Char → List Char
  | _, [] => []
  | k, c :: rest =>
    if c = '\n' then
      if 2 ≤ k then collapseFrom k rest
      else '\n' :: collapseFrom (k + 1) rest
    else c :: collapseFrom 0 rest

/-- `String.prototype.trim`: drop JavaScript whitespace from both ends. -/
def jsTrim (l : List Char) : List Char :=
  ((l.dropWhile isJsWs).reverse.dropWhile isJsWs).reverse

/-- The sanitizer pipeline of `main.js` lines 47-56 on character lists, in
the source's order: fence openers, fence closers, bold markers, horizontal
rules, headers, newline collapsing, trim. -/
def stripMarkdownList (l : List Char) : List Char :=
  jsTrim (collapseFrom 0
    (runScan headerM updLine true
      (runScan ruleM updLine true
        (runScan boldM updAny false
          (runScan fenceCloseM updAny false
            (runScan fenceOpenM updAny false l))))))

/-- `stripMarkdownCodeBlocks` (`main.js` lines 47-56): strips markdown
artifacts from a raw model response. -/
def stripMarkdownCodeBlocks (s : String) : String :=
  String.mk (stripMarkdownList s.data)

/-- `String.prototype.trim` on strings (used by the chat service, which
returns `response.trim()`). -/
def jsTrimStr (s : String) : String :=
  String.mk (jsTrim s.data)

/-- The three prompt resources loaded at startup (`main.js` lines 33-35).
Their file contents are external to the repository, so the store is a
parameter of every service function. -/
structure PromptStore where
  p5jsPrompt : String
  phaserPrompt : String
  AIchatbotPrompt : String
deriving DecidableEq

/-- One block of `message.content` in an Anthropic response; the services
concatenate the `text` blocks and ignore every other block type. -/
inductive ContentBlock
  | text (s : String)
  | other
deriving DecidableEq

/-- `response += block.text` over the blocks, in order
(`main.js` lines 110-115 and 195-200). -/
def extractText : List ContentBlock → String
  | [] => ""
  | .text s :: rest => s ++ extractText rest
  | .other :: rest => extractText rest

/-- Token-usage counters reported by the provider. -/
structure Usage where
  outputTokens : Nat
deriving DecidableEq

/-- Outcome of one `anthropic.messages.create` call: a resolved message
(content blocks, provider stop reason, usage) or a rejection whose
`error.message` the services log and rethrow. -/
inductive ModelResult
  | ok (content : List ContentBlock) (stopReason : String) (usage : Usage)
  | err (message : String)
deriving DecidableEq

/-- The shape of the request a service hands to the provider: the system
prompt text, the user turn, `max_tokens`, and whether the system block
carries the `cache_control: ephemeral` hint. -/
structure ModelRequest where
  system : String
  userMessage : String
  maxTokens : Nat
  cacheable : Bool
deriving DecidableEq

instance {α β : Type} [DecidableEq α] [DecidableEq β] :
    DecidableEq (Except α β) := fun a b => by
  cases a with
  | ok x =>
    cases b with
    | ok y => exact decidable_of_iff (x = y) (by simp)
    | error y => exact .isFalse (by simp)
  | error x =>
    cases b with
    | ok y => exact .isFalse (by simp)
    | error y => exact decidable_of_iff (x = y) (by simp)

/-- Observable result of one `generateGame` or `chatWithCodeAssistant`
call: the request issued, the value returned or error rethrown, and the
value of the module variable `TheCleanCode` after the call. -/
structure OneShotRun where
  request : ModelRequest
  result : Except String String
  cacheAfter : String
deriving DecidableEq

/-- `generateGame` (`main.js` lines 72-147).  Selects the system prompt by
library (`phaser` exact match, anything else falls back to p5js), issues a
cacheable request, strips markdown from the concatenated text blocks,
stores the clean code in `TheCleanCode` and returns it; a rejected call is
rethrown with `TheCleanCode` untouched.  The `stop_reason === 'max_tokens'`
check only prints a console warning. -/
def generateGame (ps : PromptStore) (description library : String)
    (modelResult : ModelResult) (cache : String) : OneShotRun :=
  let systemPrompt := if library = "phaser" then ps.phaserPrompt else ps.p5jsPrompt
  let request : ModelRequest :=
    { system := systemPrompt, userMessage := description,
      maxTokens := 7000, cacheable := true }
  match modelResult with
  | .ok content _stopReason _usage =>
    let cleanCode := stripMarkdownCodeBlocks (extractText content)
    { request := request, result := .ok cleanCode, cacheAfter := cleanCode }
  | .err message =>
    { request := request, result := .error message, cacheAfter := cache }

/-- `chatWithCodeAssistant` (`main.js` lines 164-208).  The system prompt
is the assistant template concatenated with the cached clean code; the
`gameCode` and `library` parameters are accepted but never read, and the
cache is never written. -/
def chatWithCodeAssistant (ps : PromptStore)
    (userMessage _gameCode _library : String)
    (modelResult : ModelResult) (cache : String) : OneShotRun :=
  let promptWithCode := ps.AIchatbotPrompt ++ cache
  let request : ModelRequest :=
    { system := promptWithCode, userMessage := userMessage,
      maxTokens := 7000, cacheable := true }
  match modelResult with
  | .ok content _stopReason _usage =>
    { request := request, result := .ok (jsTrimStr (extractText content)),
      cacheAfter := cache }
  | .err message =>
    { request := request, result := .error message, cacheAfter := cache }

/-- One event delivered to the `onChunk` sink of `generateGameStreaming`:
a text chunk (`{type:'chunk', text, full, chunkNumber}`), the terminal
completion (`{type:'complete', code, chunks, tokens}`) or an error
(`{type:'error', error}`).  The wall-clock `totalTime` field is omitted. -/
inductive StreamEvent
  | chunk (text full : String) (chunkNumber : Nat)
  | complete (code : String) (chunks tokens : Nat)
  | error (message : String)
deriving DecidableEq

/-- How the provider stream ends after delivering its text deltas: either
`finalMessage()` resolves with a stop reason and usage, or it rejects with
an error message (a mid-stream failure). -/
inductive StreamOutcome
  | success (stopReason : String) (tokens : Nat)
  | failure (message : String)
deriving DecidableEq

/-- The chunk events produced by the `stream.on('text')` handler: each
delta is delivered with the cumulative snapshot so far and the incremented
`chunkCount` (`acc` is the text already seen, `n` chunks so far). -/
def chunkFrom (acc : String) (n : Nat) : List String → List StreamEvent
  | [] => []
  | d :: ds => .chunk d (acc ++ d) (n + 1) :: chunkFrom (acc ++ d) (n + 1) ds

/-- Concatenation of all deltas — the final snapshot held in
`fullResponse` when the stream ends. -/
def concatAll : List String → String
  | [] => ""
  | s :: rest => s ++ concatAll rest

/-- Observable result of one `generateGameStreaming` call: the request
issued, the events delivered to `onChunk` in order, the value returned or
error rethrown, and `TheCleanCode` after the call. -/
structure StreamingRun where
  request : ModelRequest
  events : List StreamEvent
  result : Except String String
  cacheAfter : String
deriving DecidableEq

/-- `generateGameStreaming` (`main.js` lines 231-317).  Selects the system
prompt exactly as `generateGame` does, issues a streaming request without
a cache hint, forwards every delta as a chunk event, and then: on
resolution, strips the accumulated text, emits one complete event, stores
the clean code in `TheCleanCode` and returns it (the `max_tokens` stop
reason only prints a warning); on rejection, emits one error event and
rethrows, leaving `TheCleanCode` untouched. -/
def generateGameStreaming (ps : PromptStore) (description library : String)
    (deltas : List String) (outcome : StreamOutcome) (cache : String) :
    StreamingRun :=
  let systemPrompt := if library = "phaser" then ps.phaserPrompt else ps.p5jsPrompt
  let request : ModelRequest :=
    { system := systemPrompt, userMessage := description,
      maxTokens := 7000, cacheable := false }
  let chunks := chunkFrom "" 0 deltas
  let fullResponse := concatAll deltas
  match outcome with
  | .success _stopReason tokens =>
    let cleanCode := stripMarkdownCodeBlocks fullResponse
    { request := request,
      events := chunks ++ [.complete cleanCode deltas.length tokens],
      result := .ok cleanCode, cacheAfter := cleanCode }
  | .failure message =>
    { request := request, events := chunks ++ [.error message],
      result := .error message, cacheAfter := cache }

/-- ASCII model of `String.prototype.toLowerCase` (the handlers only
compare the result with the ASCII literals "p5js" and "phaser"). -/
def jsToLower (s : String) : String := String.mk (s.data.map Char.toLower)

/-- Body of a generation request: both fields may be absent, and a
JavaScript falsiness test (`!description`, `!library`) also treats the
empty string as absent. -/
structure GenBody where
  description : Option String
  library : Option String
deriving DecidableEq

/-- JavaScript falsiness of an optional string field. -/
def falsy : Option String → Bool
  | none => true
  | some s => s = ""

/-- Response of the one-shot `POST /api/generate` handler. -/
inductive GenResponse
  | ok (code library : String)
  | badRequest (error : String)
  | serverError (error : String)
deriving DecidableEq

/-- The `POST /api/generate` handler (server file lines 486-544): rejects
a missing/empty description, a description whose trimmed length is below
5, a missing/empty library, and a library not in {p5js, phaser} after
lowercasing; otherwise calls `generateGame` and wraps its result.  Returns
the response together with `TheCleanCode` after the call. -/
def handleGenerate (ps : PromptStore) (body : GenBody)
    (modelResult : ModelResult) (cache : String) : GenResponse × String :=
  if falsy body.description then
    (.badRequest "Description is required. Please describe the game you want to create.", cache)
  else
    let d := body.description.getD ""
    if (jsTrimStr d).length < 5 then
      (.badRequest "Description is too short. Please provide more details.", cache)
    else if falsy body.library then
      (.badRequest "Library is required. Choose either \"p5js\" or \"phaser\".", cache)
    else
      let normalizedLibrary := jsToLower (body.library.getD "")
      if normalizedLibrary = "p5js" ∨ normalizedLibrary = "phaser" then
        let run := generateGame ps d normalizedLibrary modelResult cache
        match run.result with
        | .ok code => (.ok code normalizedLibrary, run.cacheAfter)
        | .error message => (.serverError message, run.cacheAfter)
      else
        (.badRequest "Invalid library. Must be either \"p5js\" or \"phaser\".", cache)

/-- Response of the streaming `POST /api/generate-stream` handler: either
a 400 rejection before any streaming, or the SSE frames written — the
events forwarded from `generateGameStreaming` plus, when the call threw,
the extra error frame written by the handler's own catch block. -/
inductive StreamResponse
  | badRequest (error : String)
  | sse (events : List StreamEvent) (extraError : Option String)
deriving DecidableEq

/-- The `POST /api/generate-stream` handler (server file lines 557-600):
rejects a missing/empty/short description; defaults a missing or empty
library to "p5js" (`library || 'p5js'`) before lowercasing and
validating; then streams `generateGameStreaming`'s events, appending its
own error frame if the call throws. -/
def handleGenerateStream (ps : PromptStore) (body : GenBody)
    (deltas : List String) (outcome : StreamOutcome) (cache : String) :
    StreamResponse × String :=
  if falsy body.description ∨ (jsTrimStr (body.description.getD "")).length < 5 then
    (.badRequest "Description is required and must be at least 5 characters.", cache)
  else
    let rawLibrary := if falsy body.library then "p5js" else body.library.getD ""
    let normalizedLibrary := jsToLower rawLibrary
    if normalizedLibrary = "p5js" ∨ normalizedLibrary = "phaser" then
      let run := generateGameStreaming ps (body.description.getD "")
        normalizedLibrary deltas outcome cache
      match run.result with
      | .ok _ => (.sse run.events none, run.cacheAfter)
      | .error message => (.sse run.events (some message), run.cacheAfter)
    else
      (.badRequest "Invalid library. Must be either \"p5js\" or \"phaser\".", cache)

/-- One service call, with the inputs and provider behavior it was given —
the alphabet of traces over the shared `TheCleanCode` cell. -/
inductive ServerOp
  | genOp (description library : String) (modelResult : ModelResult)
  | streamOp (description library : String) (deltas : List String)
      (outcome : StreamOutcome)
  | chatOp (userMessage gameCode library : String) (modelResult : ModelResult)
deriving DecidableEq

/-- The value of `TheCleanCode` after one service call. -/
def stepCache (ps : PromptStore) (cache : String) : ServerOp → String
  | .genOp d lib mr => (generateGame ps d lib mr cache).cacheAfter
  | .streamOp d lib ds oc => (generateGameStreaming ps d lib ds oc cache).cacheAfter
  | .chatOp m g l mr => (chatWithCodeAssistant ps m g l mr cache).cacheAfter

/-- The value of `TheCleanCode` after a sequence of service calls,
starting from its initializer `""` (`main.js` line 38). -/
def runTrace (ps : PromptStore) (ops : List ServerOp) : String :=
  ops.foldl (stepCache ps) ""

/-- Whether an operation is a chat call (the only operations that never
write the cache). -/
def isChatOp : ServerOp → Bool
  | .chatOp _ _ _ _ => true
  | _ => false

/-- A concrete prompt store used to instantiate universally quantified
theorems at witness inputs. -/
def samplePrompts : PromptStore :=
  { p5jsPrompt := "p5 system prompt.", phaserPrompt := "phaser system prompt.",
    AIchatbotPrompt := "assistant template." }

/-- Event classifier: chunk events. -/
def isChunkEv : StreamEvent → Bool
  | .chunk _ _ _ => true
  | _ => false

/-- Event classifier: complete events. -/
def isCompleteEv : StreamEvent → Bool
  | .complete _ _ _ => true
  | _ => false

/-- Event classifier: error events. -/
def isErrorEv : StreamEvent → Bool
  | .error _ => true
  | _ => false

/-- Length of the leading newline run of a character list. -/
def leadNl (l : List Char) : Nat := (l.takeWhile fun c => c = '\n').length

/-- Whether a character list contains three consecutive newlines — the
redex of the newline-collapsing pass. -/
def hasTriple : List Char → Bool
  | [] => false
  | c :: rest => (decide (c = '\n') && decide (2 ≤ leadNl rest)) || hasTriple rest

/-- The number of chunk events equals the number of deltas. -/
theorem chunkFrom_length (acc : String) (n : Nat) (ds : List String) :
    (chunkFrom acc n ds).length = ds.length := by
  induction ds generalizing acc n with
  | nil => rfl
  | cons d ds ih => simp [chunkFrom, ih]

/-- Claim C2 (counterexample): on the spec's example input the sanitizer
does NOT return "bold text\nHeading\n\nline" — removing the horizontal
rule leaves an empty line, and two newlines are below the collapse
threshold, so a blank line remains after "bold text". -/
theorem strip_example_ne_spec :
    stripMarkdownCodeBlocks "```js\n**bold** text\n---\n# Heading\n\n\n\nline\n```"
      ≠ "bold text\nHeading\n\nline" := by decide

/-- Claim C2 (amended): on the input
"```js\n**bold** text\n---\n# Heading\n\n\n\nline\n```" the sanitizer
yields "bold text\n\nHeading\n\nline" — fences, bold markers, the rule
line's hyphens and the heading marker are removed and the four-newline run
collapses to two, but the rule line leaves one blank line behind. -/
theorem strip_example_actual :
    stripMarkdownCodeBlocks "```js\n**bold** text\n---\n# Heading\n\n\n\nline\n```"
      = "bold text\n\nHeading\n\nline" := by decide

/-- Claim C3 (counterexample): the sanitizer is not idempotent.  On
"#---" the first pass removes the heading marker after the rule pass has
already run, exposing a horizontal rule "---" that only a second pass
removes. -/
theorem strip_not_idempotent :
    stripMarkdownCodeBlocks (stripMarkdownCodeBlocks "#---")
      ≠ stripMarkdownCodeBlocks "#---" := by decide

/-- Claim C7: for every library value other than "phaser" — in particular
every value outside {p5js, phaser} — both `generateGame` and
`generateGameStreaming` fall back to the p5js system prompt, so the
fallback policy is applied consistently across the one-shot and streaming
paths. -/
theorem library_fallback_consistent (ps : PromptStore) (d lib : String)
    (mr : ModelResult) (deltas : List String) (oc : StreamOutcome)
    (cache : String) (h : lib ≠ "phaser") :
    (generateGame ps d lib mr cache).request.system = ps.p5jsPrompt
    ∧ (generateGameStreaming ps d lib deltas oc cache).request.system
        = ps.p5jsPrompt := by
  refine ⟨?_, ?_⟩
  · cases mr <;> simp [generateGame, h]
  · cases oc <;> simp [generateGameStreaming, h]

/-- Witness for claim C7 at the unrecognized library "three". -/
theorem library_fallback_consistent_witness :
    ("three" : String) ≠ "phaser"
    ∧ (generateGame samplePrompts "a maze game" "three" (.err "boom") "").request.system
        = samplePrompts.p5jsPrompt
    ∧ (generateGameStreaming samplePrompts "a maze game" "three" ["x"]
        (.failure "boom") "").request.system = samplePrompts.p5jsPrompt := by
  have h : ("three" : String) ≠ "phaser" := by decide
  have t := library_fallback_consistent samplePrompts "a maze game" "three"
    (.err "boom") ["x"] (.failure "boom") "" h
  exact ⟨h, t.1, t.2⟩

/-- Claim C9: a chat call's observable behavior — constructed system
prompt, issued request, returned reply, cache afterwards — is independent
of the `gameCode` and `library` arguments, which are accepted but never
read; the prompt always comes from the shared cache, and the cache is
never written by chat. -/
theorem chat_ignores_code_and_library (ps : PromptStore)
    (msg g1 l1 g2 l2 : String) (mr : ModelResult) (cache : String) :
    chatWithCodeAssistant ps msg g1 l1 mr cache
        = chatWithCodeAssistant ps msg g2 l2 mr cache
    ∧ (chatWithCodeAssistant ps msg g1 l1 mr cache).cacheAfter = cache
    ∧ (chatWithCodeAssistant ps msg g1 l1 mr cache).request.system
        = ps.AIchatbotPrompt ++ cache := by
  refine ⟨rfl, ?_, ?_⟩ <;> cases mr <;> rfl

/-- Claim C6 (amended): a completion whose stop reason is `max_tokens` is
handled as a full success by both paths — the sanitized text is returned,
the streaming complete event is emitted, and the cache is updated — and
the run is identical to one whose stop reason is `end_turn`: the code
attaches no truncation flag to any result or event, it only prints a
console warning. -/
theorem truncation_treated_as_success (ps : PromptStore) (d lib : String)
    (content : List ContentBlock) (u : Usage) (deltas : List String)
    (tokens : Nat) (cache : String) :
    (generateGame ps d lib (.ok content "max_tokens" u) cache).result
        = .ok (stripMarkdownCodeBlocks (extractText content))
    ∧ (generateGame ps d lib (.ok content "max_tokens" u) cache).cacheAfter
        = stripMarkdownCodeBlocks (extractText content)
    ∧ generateGame ps d lib (.ok content "max_tokens" u) cache
        = generateGame ps d lib (.ok content "end_turn" u) cache
    ∧ (generateGameStreaming ps d lib deltas (.success "max_tokens" tokens)
        cache).result = .ok (stripMarkdownCodeBlocks (concatAll deltas))
    ∧ (generateGameStreaming ps d lib deltas (.success "max_tokens" tokens)
        cache).events[deltas.length]?
        = some (.complete (stripMarkdownCodeBlocks (concatAll deltas))
            deltas.length tokens)
    ∧ (generateGameStreaming ps d lib deltas (.success "max_tokens" tokens)
        cache).cacheAfter = stripMarkdownCodeBlocks (concatAll deltas)
    ∧ generateGameStreaming ps d lib deltas (.success "max_tokens" tokens) cache
        = generateGameStreaming ps d lib deltas (.success "end_turn" tokens)
          cache := by
  refine ⟨rfl, rfl, rfl, rfl, ?_, rfl, rfl⟩
  have h := List.getElem?_concat_length (chunkFrom "" 0 deltas)
    (StreamEvent.complete (stripMarkdownCodeBlocks (concatAll deltas))
      deltas.length tokens)
  rw [chunkFrom_length] at h
  exact h

/-- Claim C6 (counterexample): no truncation flag is carried anywhere — at
a concrete input the entire observable run under stop reason `max_tokens`
equals the run under `end_turn`, for both paths, so the result does not
record that truncation happened. -/
theorem truncation_no_flag_on_result :
    generateGame samplePrompts "a bouncing ball game" "p5js"
        (.ok [.text "code"] "max_tokens" ⟨42⟩) ""
      = generateGame samplePrompts "a bouncing ball game" "p5js"
          (.ok [.text "code"] "end_turn" ⟨42⟩) ""
    ∧ generateGameStreaming samplePrompts "a bouncing ball game" "p5js"
        ["co", "de"] (.success "max_tokens" 42) ""
      = generateGameStreaming samplePrompts "a bouncing ball game" "p5js"
          ["co", "de"] (.success "end_turn" 42) "" :=
  ⟨rfl, rfl⟩


/-- Every event produced by the text-delta handler is a chunk event. -/
theorem chunkFrom_all_chunk (acc : String) (n : Nat) (ds : List String) :
    ∀ e ∈ chunkFrom acc n ds, isChunkEv e = true := by
  induction ds generalizing acc n with
  | nil => intro e he; cases he
  | cons d ds ih =>
    intro e he
    cases he with
    | head => rfl
    | tail _ h => exact ih (acc ++ d) (n + 1) e h

/-- The i-th chunk event carries the i-th delta, the cumulative text of
the first i+1 deltas appended to the starting accumulator, and the
sequence number `n + i + 1`. -/
theorem chunkFrom_getElem? (ds : List String) :
    ∀ (acc : String) (n i : Nat) (dl : String), ds[i]? = some dl →
      (chunkFrom acc n ds)[i]?
        = some (.chunk dl (acc ++ concatAll (ds.take (i + 1))) (n + i + 1)) := by
  induction ds with
  | nil => intro acc n i dl h; cases h
  | cons d ds ih =>
    intro acc n i dl h
    cases i with
    | zero =>
      rw [List.getElem?_cons_zero] at h
      cases h
      simp [chunkFrom, concatAll, String.append_empty]
    | succ i =>
      rw [List.getElem?_cons_succ] at h
      have h2 := ih (acc ++ d) (n + 1) i dl h
      rw [show chunkFrom acc n (d :: ds) = .chunk d (acc ++ d) (n + 1) :: chunkFrom (acc ++ d) (n + 1) ds from rfl]
      rw [List.getElem?_cons_succ, h2, List.take_succ_cons]
      rw [show concatAll (d :: ds.take (i + 1)) = d ++ concatAll (ds.take (i + 1)) from rfl]
      rw [← String.append_assoc]
      congr 2
      omega

/-- Claim C1: a successful streaming call delivers chunk events carrying
sequence numbers 1, 2, … in emission order, each with its delta and the
cumulative text so far; the cumulative text of the last chunk is the
concatenation of all deltas; the terminal complete event carries the
sanitized cumulative text and is delivered after every chunk event; and
the sanitized text is also returned. -/
theorem generateGameStreaming_success_spec (ps : PromptStore)
    (d lib : String) (deltas : List String) (stopReason : String)
    (tokens : Nat) (cache : String) :
    (generateGameStreaming ps d lib deltas (.success stopReason tokens) cache).events
        = chunkFrom "" 0 deltas
          ++ [StreamEvent.complete (stripMarkdownCodeBlocks (concatAll deltas))
              deltas.length tokens]
    ∧ (∀ i dl, deltas[i]? = some dl →
        (generateGameStreaming ps d lib deltas (.success stopReason tokens)
          cache).events[i]?
          = some (StreamEvent.chunk dl (concatAll (deltas.take (i + 1))) (i + 1)))
    ∧ (∀ dl, deltas[deltas.length - 1]? = some dl →
        (generateGameStreaming ps d lib deltas (.success stopReason tokens)
          cache).events[deltas.length - 1]?
          = some (StreamEvent.chunk dl (concatAll deltas) deltas.length))
    ∧ (generateGameStreaming ps d lib deltas (.success stopReason tokens)
        cache).events[deltas.length]?
        = some (StreamEvent.complete (stripMarkdownCodeBlocks (concatAll deltas))
            deltas.length tokens)
    ∧ (generateGameStreaming ps d lib deltas (.success stopReason tokens)
        cache).events.length = deltas.length + 1
    ∧ (generateGameStreaming ps d lib deltas (.success stopReason tokens)
        cache).result = .ok (stripMarkdownCodeBlocks (concatAll deltas))
    ∧ (generateGameStreaming ps d lib deltas (.success stopReason tokens)
        cache).cacheAfter = stripMarkdownCodeBlocks (concatAll deltas) := by
  have hlen : (chunkFrom "" 0 deltas).length = deltas.length :=
    chunkFrom_length "" 0 deltas
  have hchunk : ∀ i dl, deltas[i]? = some dl →
      (chunkFrom "" 0 deltas
        ++ [StreamEvent.complete (stripMarkdownCodeBlocks (concatAll deltas))
            deltas.length tokens])[i]?
        = some (StreamEvent.chunk dl (concatAll (deltas.take (i + 1))) (i + 1)) := by
    intro i dl h
    have hi : i < deltas.length := by
      by_contra hh
      push_neg at hh
      rw [List.getElem?_eq_none hh] at h
      cases h
    rw [List.getElem?_append, if_pos (by omega : i < (chunkFrom "" 0 deltas).length)]
    have h2 := chunkFrom_getElem? deltas "" 0 i dl h
    rw [h2, String.empty_append]
    congr 3
    omega
  refine ⟨rfl, hchunk, ?_, ?_, ?_, rfl, rfl⟩
  · intro dl h
    have hne : deltas ≠ [] := by
      intro he
      rw [he] at h
      cases h
    have hpos : 1 ≤ deltas.length := by
      cases deltas with
      | nil => exact absurd rfl hne
      | cons a l => simp
    have h2 := hchunk (deltas.length - 1) dl h
    rw [show deltas.length - 1 + 1 = deltas.length from by omega,
      List.take_length] at h2
    exact h2
  · have h := List.getElem?_concat_length (chunkFrom "" 0 deltas)
      (StreamEvent.complete (stripMarkdownCodeBlocks (concatAll deltas))
        deltas.length tokens)
    rw [hlen] at h
    exact h
  · rw [show (generateGameStreaming ps d lib deltas
      (.success stopReason tokens) cache).events
        = chunkFrom "" 0 deltas
          ++ [StreamEvent.complete (stripMarkdownCodeBlocks (concatAll deltas))
              deltas.length tokens] from rfl]
    simp [hlen]

/-- Witness for claim C1 at the two-delta stream ["ab", "c"]. -/
theorem generateGameStreaming_success_spec_witness :
    (generateGameStreaming samplePrompts "pong" "p5js" ["ab", "c"]
        (.success "end_turn" 7) "").events[1]?
      = some (StreamEvent.chunk "c" "abc" 2)
    ∧ (generateGameStreaming samplePrompts "pong" "p5js" ["ab", "c"]
        (.success "end_turn" 7) "").events[2]?
      = some (StreamEvent.complete "abc" 2 7) := by
  have t := generateGameStreaming_success_spec samplePrompts "pong" "p5js"
    ["ab", "c"] "end_turn" 7 ""
  constructor
  · exact (t.2.1 1 "c" rfl).trans (by decide)
  · exact t.2.2.2.1.trans (by decide)

/-- Chunk events are neither error nor complete events. -/
theorem chunkFrom_not_error_not_complete (acc : String) (n : Nat)
    (ds : List String) :
    ∀ e ∈ chunkFrom acc n ds, isErrorEv e = false ∧ isCompleteEv e = false := by
  intro e he
  have h := chunkFrom_all_chunk acc n ds e he
  cases e with
  | chunk t f k => exact ⟨rfl, rfl⟩
  | complete c k tk => cases h
  | error m => cases h

/-- Claim C4: when the model call fails mid-stream, the streaming service
delivers the already-received chunk events followed by exactly one error
event carrying the failure message, delivers no complete event, rethrows
the error to its caller (both signaling mechanisms fire), and leaves the
cache untouched. -/
theorem generateGameStreaming_failure_spec (ps : PromptStore)
    (d lib : String) (deltas : List String) (msg cache : String) :
    (generateGameStreaming ps d lib deltas (.failure msg) cache).events
        = chunkFrom "" 0 deltas ++ [.error msg]
    ∧ (generateGameStreaming ps d lib deltas (.failure msg)
        cache).events.filter isErrorEv = [.error msg]
    ∧ (generateGameStreaming ps d lib deltas (.failure msg)
        cache).events.countP isCompleteEv = 0
    ∧ (generateGameStreaming ps d lib deltas (.failure msg) cache).result
        = .error msg
    ∧ (generateGameStreaming ps d lib deltas (.failure msg) cache).cacheAfter
        = cache := by
  refine ⟨rfl, ?_, ?_, rfl, rfl⟩
  · rw [show (generateGameStreaming ps d lib deltas (.failure msg)
      cache).events = chunkFrom "" 0 deltas ++ [.error msg] from rfl]
    rw [List.filter_append]
    rw [List.filter_eq_nil_iff.mpr
      (fun e he => by
        simp [(chunkFrom_not_error_not_complete "" 0 deltas e he).1])]
    simp [isErrorEv]
  · rw [show (generateGameStreaming ps d lib deltas (.failure msg)
      cache).events = chunkFrom "" 0 deltas ++ [.error msg] from rfl]
    rw [List.countP_append]
    rw [List.countP_eq_zero.mpr
      (fun e he => by
        simp [(chunkFrom_not_error_not_complete "" 0 deltas e he).2])]
    simp [List.countP_cons, isCompleteEv]

/-- Claim C5: if a one-shot or streaming generation succeeds with clean
code `c`, the cache afterwards holds `c`, so a subsequent chat call with
no intervening generation builds its system prompt as the assistant
template concatenated with `c` — in particular the prompt contains `c` as
a substring. -/
theorem generation_result_feeds_chat (ps : PromptStore)
    (d lib msg g l : String) (mr mr2 : ModelResult) (deltas : List String)
    (oc : StreamOutcome) (c cache : String) :
    ((generateGame ps d lib mr cache).result = .ok c →
      (chatWithCodeAssistant ps msg g l mr2
        (generateGame ps d lib mr cache).cacheAfter).request.system
        = ps.AIchatbotPrompt ++ c
      ∧ ∃ a b, (chatWithCodeAssistant ps msg g l mr2
          (generateGame ps d lib mr cache).cacheAfter).request.system
          = a ++ (c ++ b))
    ∧ ((generateGameStreaming ps d lib deltas oc cache).result = .ok c →
      (chatWithCodeAssistant ps msg g l mr2
        (generateGameStreaming ps d lib deltas oc cache).cacheAfter).request.system
        = ps.AIchatbotPrompt ++ c
      ∧ ∃ a b, (chatWithCodeAssistant ps msg g l mr2
          (generateGameStreaming ps d lib deltas oc cache).cacheAfter).request.system
          = a ++ (c ++ b)) := by
  constructor
  · intro h
    cases mr with
    | err m => simp [generateGame] at h
    | ok content sr u =>
      have hc : stripMarkdownCodeBlocks (extractText content) = c := by
        simpa [generateGame] using h
      have hsys : (chatWithCodeAssistant ps msg g l mr2
          (generateGame ps d lib (.ok content sr u) cache).cacheAfter).request.system
          = ps.AIchatbotPrompt ++ c := by
        cases mr2 <;> simp [chatWithCodeAssistant, generateGame, hc]
      exact ⟨hsys, ps.AIchatbotPrompt, "",
        by rw [hsys, String.append_empty]⟩
  · intro h
    cases oc with
    | failure m => simp [generateGameStreaming] at h
    | success sr tk =>
      have hc : stripMarkdownCodeBlocks (concatAll deltas) = c := by
        simpa [generateGameStreaming] using h
      have hsys : (chatWithCodeAssistant ps msg g l mr2
          (generateGameStreaming ps d lib deltas (.success sr tk)
            cache).cacheAfter).request.system
          = ps.AIchatbotPrompt ++ c := by
        cases mr2 <;> simp [chatWithCodeAssistant, generateGameStreaming, hc]
      exact ⟨hsys, ps.AIchatbotPrompt, "",
        by rw [hsys, String.append_empty]⟩

/-- Witness for claim C5: a generation returning "code" makes the next
chat prompt "assistant template." ++ "code". -/
theorem generation_result_feeds_chat_witness :
    (generateGame samplePrompts "snake" "p5js"
        (.ok [.text "code"] "end_turn" ⟨3⟩) "").result = .ok "code"
    ∧ (chatWithCodeAssistant samplePrompts "make it faster" "g" "l"
        (.err "boom")
        (generateGame samplePrompts "snake" "p5js"
          (.ok [.text "code"] "end_turn" ⟨3⟩) "").cacheAfter).request.system
      = samplePrompts.AIchatbotPrompt ++ "code" := by
  have hr : (generateGame samplePrompts "snake" "p5js"
      (.ok [.text "code"] "end_turn" ⟨3⟩) "").result = .ok "code" := by decide
  have t := (generation_result_feeds_chat samplePrompts "snake" "p5js"
    "make it faster" "g" "l" (.ok [.text "code"] "end_turn" ⟨3⟩)
    (.err "boom") [] (.failure "x") "code" "").1 hr
  exact ⟨hr, t.1⟩

/-- The cache cell only ever holds "" or a sanitizer output: one step
preserves the invariant. -/
theorem stepCache_inv (ps : PromptStore) (cache : String) (op : ServerOp)
    (h : cache = "" ∨ ∃ t, cache = stripMarkdownCodeBlocks t) :
    stepCache ps cache op = ""
      ∨ ∃ t, stepCache ps cache op = stripMarkdownCodeBlocks t := by
  cases op with
  | genOp d lib mr =>
    cases mr with
    | ok content sr u => exact Or.inr ⟨extractText content, rfl⟩
    | err m => exact h
  | streamOp d lib ds oc =>
    cases oc with
    | success sr tk => exact Or.inr ⟨concatAll ds, rfl⟩
    | failure m => exact h
  | chatOp m g l mr =>
    cases mr with
    | ok content sr u => exact h
    | err m => exact h

/-- Folding the step function from an invariant state stays in the
invariant. -/
theorem foldl_stepCache_inv (ps : PromptStore) (ops : List ServerOp) :
    ∀ cache, (cache = "" ∨ ∃ t, cache = stripMarkdownCodeBlocks t) →
      ops.foldl (stepCache ps) cache = ""
        ∨ ∃ t, ops.foldl (stepCache ps) cache = stripMarkdownCodeBlocks t := by
  induction ops with
  | nil => intro cache h; exact h
  | cons op ops ih =>
    intro cache h
    exact ih (stepCache ps cache op) (stepCache_inv ps cache op h)

/-- Chat calls never write the cache, so a trace of chat calls leaves any
starting cache value unchanged. -/
theorem foldl_chatOnly_cache (ps : PromptStore) (ops : List ServerOp) :
    ∀ cache, (∀ op ∈ ops, isChatOp op = true) →
      ops.foldl (stepCache ps) cache = cache := by
  induction ops with
  | nil => intro cache _; rfl
  | cons op ops ih =>
    intro cache h
    have hop : isChatOp op = true := h op (List.mem_cons_self op ops)
    have hstep : stepCache ps cache op = cache := by
      cases op with
      | genOp d lib mr => cases hop
      | streamOp d lib ds oc => cases hop
      | chatOp m g l mr => cases mr <;> rfl
    rw [List.foldl_cons, hstep]
    exact ih cache (fun o ho => h o (List.mem_cons_of_mem op ho))

/-- Claim C10: the shared cache cell `TheCleanCode` starts as the empty
string, and after any sequence of service calls it holds either "" or an
output of the sanitizer; before any generation has completed (a trace of
chat calls only) a chat call's system prompt is exactly the assistant
template, and with a successful model call the chat succeeds — it does not
fail for lack of context. -/
theorem clean_code_cache_invariant (ps : PromptStore) (ops : List ServerOp) :
    runTrace ps [] = ""
    ∧ (runTrace ps ops = ""
        ∨ ∃ t, runTrace ps ops = stripMarkdownCodeBlocks t)
    ∧ ((∀ op ∈ ops, isChatOp op = true) →
        runTrace ps ops = ""
        ∧ (∀ msg g l mr,
            (chatWithCodeAssistant ps msg g l mr
              (runTrace ps ops)).request.system = ps.AIchatbotPrompt)
        ∧ (∀ msg g l content sr u,
            (chatWithCodeAssistant ps msg g l (.ok content sr u)
              (runTrace ps ops)).result
              = .ok (jsTrimStr (extractText content)))) := by
  refine ⟨rfl, foldl_stepCache_inv ps ops "" (Or.inl rfl), ?_⟩
  intro h
  have hc : runTrace ps ops = "" := foldl_chatOnly_cache ps ops "" h
  refine ⟨hc, ?_, ?_⟩
  · intro msg g l mr
    have : (chatWithCodeAssistant ps msg g l mr
        (runTrace ps ops)).request.system = ps.AIchatbotPrompt ++ "" := by
      rw [hc]; cases mr <;> rfl
    rw [this, String.append_empty]
  · intro msg g l content sr u
    rfl

/-- Witness for claim C10 on a one-chat trace. -/
theorem clean_code_cache_invariant_witness :
    runTrace samplePrompts
        [.chatOp "hi" "g" "l" (.ok [.text " reply "] "end_turn" ⟨1⟩)] = ""
    ∧ (chatWithCodeAssistant samplePrompts "hi" "g" "l"
        (.ok [.text " reply "] "end_turn" ⟨1⟩)
        (runTrace samplePrompts
          [.chatOp "hi" "g" "l" (.ok [.text " reply "] "end_turn" ⟨1⟩)])).request.system
      = samplePrompts.AIchatbotPrompt
    ∧ (chatWithCodeAssistant samplePrompts "hi" "g" "l"
        (.ok [.text " reply "] "end_turn" ⟨1⟩)
        (runTrace samplePrompts
          [.chatOp "hi" "g" "l" (.ok [.text " reply "] "end_turn" ⟨1⟩)])).result
      = .ok "reply" := by
  have t := clean_code_cache_invariant samplePrompts
    [.chatOp "hi" "g" "l" (.ok [.text " reply "] "end_turn" ⟨1⟩)]
  have h : ∀ op ∈ [ServerOp.chatOp "hi" "g" "l"
      (.ok [.text " reply "] "end_turn" ⟨1⟩)], isChatOp op = true := by
    intro op hop
    cases hop with
    | head => rfl
    | tail _ hh => cases hh
  have t2 := t.2.2 h
  refine ⟨t2.1, t2.2.1 "hi" "g" "l" (.ok [.text " reply "] "end_turn" ⟨1⟩), ?_⟩
  exact (t2.2.2 "hi" "g" "l" [.text " reply "] "end_turn" ⟨1⟩).trans (by decide)

/-- Claim C8 (counterexample): the one-shot `/api/generate` handler does
NOT default an absent library — a valid request with no `library` field is
rejected with the "Library is required" validation error and the cache is
untouched (so the request is not processed). -/
theorem generate_rejects_absent_library :
    handleGenerate samplePrompts
        { description := some "a ball bounces off four walls", library := none }
        (.ok [.text "code"] "end_turn" ⟨1⟩) ""
      = (.badRequest "Library is required. Choose either \"p5js\" or \"phaser\".",
          "") := by decide

/-- Claim C8 (amended): the defaulting policies of the two handlers
differ.  For a valid description and an absent library field, the
streaming `/api/generate-stream` handler defaults the library to "p5js"
and processes the request (it behaves exactly as if `library: "p5js"` had
been sent, and answers with an SSE stream), while the one-shot
`/api/generate` handler rejects the request with the "Library is
required" validation error. -/
theorem library_absent_policy (ps : PromptStore) (d : String)
    (mr : ModelResult) (deltas : List String) (oc : StreamOutcome)
    (cache : String) (h1 : d ≠ "") (h2 : ¬ (jsTrimStr d).length < 5) :
    handleGenerate ps { description := some d, library := none } mr cache
        = (.badRequest "Library is required. Choose either \"p5js\" or \"phaser\".",
            cache)
    ∧ handleGenerateStream ps { description := some d, library := none }
        deltas oc cache
        = handleGenerateStream ps { description := some d, library := some "p5js" }
            deltas oc cache
    ∧ ∃ events extra,
        (handleGenerateStream ps { description := some d, library := none }
          deltas oc cache).1 = .sse events extra := by
  have hred : handleGenerateStream ps
      { description := some d, library := none } deltas oc cache
      = (match (generateGameStreaming ps d "p5js" deltas oc cache).result with
         | .ok _ =>
           (StreamResponse.sse
             (generateGameStreaming ps d "p5js" deltas oc cache).events none,
            (generateGameStreaming ps d "p5js" deltas oc cache).cacheAfter)
         | .error message =>
           (StreamResponse.sse
             (generateGameStreaming ps d "p5js" deltas oc cache).events
             (some message),
            (generateGameStreaming ps d "p5js" deltas oc cache).cacheAfter)) := by
    unfold handleGenerateStream
    rw [if_neg (by simp [falsy, h1, h2])]
    rfl
  have hred2 : handleGenerateStream ps
      { description := some d, library := some "p5js" } deltas oc cache
      = (match (generateGameStreaming ps d "p5js" deltas oc cache).result with
         | .ok _ =>
           (StreamResponse.sse
             (generateGameStreaming ps d "p5js" deltas oc cache).events none,
            (generateGameStreaming ps d "p5js" deltas oc cache).cacheAfter)
         | .error message =>
           (StreamResponse.sse
             (generateGameStreaming ps d "p5js" deltas oc cache).events
             (some message),
            (generateGameStreaming ps d "p5js" deltas oc cache).cacheAfter)) := by
    unfold handleGenerateStream
    rw [if_neg (by simp [falsy, h1, h2])]
    rfl
  refine ⟨?_, ?_, ?_⟩
  · simp [handleGenerate, falsy, h1, h2]
  · rw [hred, hred2]
  · rw [hred]
    cases hres : (generateGameStreaming ps d "p5js" deltas oc cache).result with
    | ok v => exact ⟨_, none, rfl⟩
    | error m => exact ⟨_, some m, rfl⟩

/-- Witness for the amended claim C8 at a concrete valid description. -/
theorem library_absent_policy_witness :
    handleGenerate samplePrompts
        { description := some "a ball bounces off four walls", library := none }
        (.err "boom") ""
      = (.badRequest "Library is required. Choose either \"p5js\" or \"phaser\".",
          "")
    ∧ handleGenerateStream samplePrompts
        { description := some "a ball bounces off four walls", library := none }
        ["x"] (.failure "boom") ""
      = handleGenerateStream samplePrompts
          { description := some "a ball bounces off four walls",
            library := some "p5js" }
          ["x"] (.failure "boom") "" := by
  have t := library_absent_policy samplePrompts "a ball bounces off four walls"
    (.err "boom") ["x"] (.failure "boom") "" (by decide) (by decide)
  exact ⟨t.1, t.2.1⟩

/-- The generic scanner is the identity when the matcher declines every
suffix of the input. -/
theorem scanGo_id (f : Bool → List Char → Option (List Char × List Char × Bool))
    (upd : Char → Bool) :
    ∀ (fuel : Nat) (st : Bool) (l : List Char),
      (∀ st2 a, (∃ t, l = t ++ a) → f st2 a = none) →
      scanGo f upd fuel st l = l := by
  intro fuel
  induction fuel with
  | zero => intro st l _; rfl
  | succ fuel ih =>
    intro st l h
    cases l with
    | nil => rfl
    | cons c rest =>
      have h0 : f st (c :: rest) = none := h st (c :: rest) ⟨[], rfl⟩
      have h1 : scanGo f upd fuel (upd c) rest = rest :=
        ih (upd c) rest (fun st2 a ha => by
          obtain ⟨t, ht⟩ := ha
          exact h st2 a ⟨c :: t, by rw [ht]; rfl⟩)
      simp only [scanGo, h0, h1]

/-- The fence-opener pattern needs a backtick. -/
theorem fenceOpenM_none (st : Bool) (l : List Char) (h : '`' ∉ l) :
    fenceOpenM st l = none := by
  unfold fenceOpenM
  split
  all_goals first
    | rfl
    | exact absurd (by simp) h

/-- The fence-closer pattern needs a backtick. -/
theorem fenceCloseM_none (st : Bool) (l : List Char) (h : '`' ∉ l) :
    fenceCloseM st l = none := by
  unfold fenceCloseM
  split
  split
  all_goals first
    | rfl
    | (rename_i heq
       have hmem : '`' ∈ List.dropWhile isJsWs l := by rw [heq]; simp
       exact absurd ((List.dropWhile_sublist isJsWs).subset hmem) h)

/-- The bold pattern needs an asterisk. -/
theorem boldM_none (st : Bool) (l : List Char) (h : '*' ∉ l) :
    boldM st l = none := by
  unfold boldM
  split
  all_goals first
    | rfl
    | exact absurd (by simp) h

/-- The horizontal-rule pattern needs a hyphen. -/
theorem ruleM_none (st : Bool) (l : List Char) (h : '-' ∉ l) :
    ruleM st l = none := by
  have hy0 : List.takeWhile (fun c => decide (c = '-')) l = [] := by
    cases l with
    | nil => rfl
    | cons a r =>
      have ha : ¬(a = '-') := fun he => h (by rw [he]; exact List.mem_cons_self '-' r)
      simp [List.takeWhile_cons, ha]
  unfold ruleM
  split
  · rfl
  · simp [hy0]

/-- The header pattern needs a hash. -/
theorem headerM_none (st : Bool) (l : List Char) (h : '#' ∉ l) :
    headerM st l = none := by
  unfold headerM
  split
  all_goals first
    | rfl
    | exact absurd (by simp) h

/-- On input free of the four marker characters, the five pattern passes
are the identity and the sanitizer reduces to newline collapsing followed
by trimming. -/
theorem stripList_plain (l : List Char)
    (h : ∀ c ∈ l, ¬(c = '`' ∨ c = '*' ∨ c = '#' ∨ c = '-')) :
    stripMarkdownList l = jsTrim (collapseFrom 0 l) := by
  have hbt : '`' ∉ l := fun hm => h '`' hm (Or.inl rfl)
  have hst : '*' ∉ l := fun hm => h '*' hm (Or.inr (Or.inl rfl))
  have hhs : '#' ∉ l := fun hm => h '#' hm (Or.inr (Or.inr (Or.inl rfl)))
  have hhy : '-' ∉ l := fun hm => h '-' hm (Or.inr (Or.inr (Or.inr rfl)))
  have suffixMem : ∀ (c : Char) (a : List Char),
      (∃ t, l = t ++ a) → c ∉ l → c ∉ a := by
    intro c a ha hc hca
    obtain ⟨t, ht⟩ := ha
    exact hc (ht ▸ List.mem_append.mpr (Or.inr hca))
  have h1 : runScan fenceOpenM updAny false l = l :=
    scanGo_id _ _ _ _ _
      (fun st2 a ha => fenceOpenM_none st2 a (suffixMem '`' a ha hbt))
  have h2 : runScan fenceCloseM updAny false l = l :=
    scanGo_id _ _ _ _ _
      (fun st2 a ha => fenceCloseM_none st2 a (suffixMem '`' a ha hbt))
  have h3 : runScan boldM updAny false l = l :=
    scanGo_id _ _ _ _ _
      (fun st2 a ha => boldM_none st2 a (suffixMem '*' a ha hst))
  have h4 : runScan ruleM updLine true l = l :=
    scanGo_id _ _ _ _ _
      (fun st2 a ha => ruleM_none st2 a (suffixMem '-' a ha hhy))
  have h5 : runScan headerM updLine true l = l :=
    scanGo_id _ _ _ _ _
      (fun st2 a ha => headerM_none st2 a (suffixMem '#' a ha hhs))
  unfold stripMarkdownList
  rw [h1, h2, h3, h4, h5]

/-- Newline collapsing only keeps characters of its input. -/
theorem mem_collapseFrom : ∀ (k : Nat) (l : List Char) (c : Char),
    c ∈ collapseFrom k l → c ∈ l := by
  intro k l
  induction l generalizing k with
  | nil => intro c hc; cases hc
  | cons a rest ih =>
    intro c hc
    by_cases ha : a = '\n'
    · subst ha
      by_cases hk : 2 ≤ k
      · rw [collapseFrom, if_pos rfl, if_pos hk] at hc
        exact List.mem_cons_of_mem _ (ih k c hc)
      · rw [collapseFrom, if_pos rfl, if_neg hk] at hc
        rcases List.mem_cons.mp hc with rfl | hc2
        · exact List.mem_cons_self _ _
        · exact List.mem_cons_of_mem _ (ih (k + 1) c hc2)
    · rw [collapseFrom, if_neg ha] at hc
      rcases List.mem_cons.mp hc with rfl | hc2
      · exact List.mem_cons_self _ _
      · exact List.mem_cons_of_mem _ (ih 0 c hc2)

/-- Trimming only keeps characters of its input. -/
theorem mem_jsTrim (l : List Char) (c : Char) (hc : c ∈ jsTrim l) : c ∈ l := by
  unfold jsTrim at hc
  rw [List.mem_reverse] at hc
  have h1 := (List.dropWhile_sublist isJsWs).subset hc
  rw [List.mem_reverse] at h1
  exact (List.dropWhile_sublist isJsWs).subset h1

/-- Leading-newline count of a newline-headed list. -/
theorem leadNl_cons_nl (l : List Char) : leadNl ('\n' :: l) = 1 + leadNl l := by
  simp [leadNl, List.takeWhile_cons]
  omega

/-- Leading-newline count of a list headed by another character. -/
theorem leadNl_cons_other {c : Char} (l : List Char) (h : ¬c = '\n') :
    leadNl (c :: l) = 0 := by
  simp [leadNl, List.takeWhile_cons, h]

/-- A triple-free list has at most two leading newlines. -/
theorem hasTriple_false_leadNl (l : List Char) (h : hasTriple l = false) :
    leadNl l ≤ 2 := by
  cases l with
  | nil => simp [leadNl]
  | cons a rest =>
    by_cases ha : a = '\n'
    · subst ha
      simp only [hasTriple, Bool.or_eq_false_iff, Bool.and_eq_false_iff] at h
      rcases h.1 with h1 | h1
      · simp at h1
      · rw [leadNl_cons_nl]
        have := of_decide_eq_false h1
        omega
    · rw [leadNl_cons_other rest ha]
      omega

/-- Splitting a triple-free cons. -/
theorem hasTriple_cons_false {a : Char} {rest : List Char}
    (h : hasTriple (a :: rest) = false) :
    hasTriple rest = false ∧ ¬(a = '\n' ∧ 2 ≤ leadNl rest) := by
  simp only [hasTriple, Bool.or_eq_false_iff, Bool.and_eq_false_iff] at h
  refine ⟨h.2, ?_⟩
  rintro ⟨h1, h2⟩
  rcases h.1 with h3 | h3
  · exact of_decide_eq_false h3 h1
  · exact of_decide_eq_false h3 h2

/-- At least two leading newlines expose two explicit newline heads. -/
theorem leadNl_ge_two (l : List Char) (h : 2 ≤ leadNl l) :
    ∃ r, l = '\n' :: '\n' :: r := by
  cases l with
  | nil => simp [leadNl] at h
  | cons a rest =>
    by_cases ha : a = '\n'
    · subst ha
      cases rest with
      | nil => rw [leadNl_cons_nl] at h; simp [leadNl] at h
      | cons b r2 =>
        by_cases hb : b = '\n'
        · subst hb; exact ⟨r2, rfl⟩
        · rw [leadNl_cons_nl, leadNl_cons_other r2 hb] at h; omega
    · rw [leadNl_cons_other rest ha] at h; omega

/-- A list contains three consecutive newlines exactly when it decomposes
around an explicit newline triple. -/
theorem hasTriple_iff (l : List Char) :
    hasTriple l = true ↔ ∃ t u, l = t ++ '\n' :: '\n' :: '\n' :: u := by
  induction l with
  | nil =>
    simp only [hasTriple]
    constructor
    · intro h; cases h
    · rintro ⟨t, u, ht⟩
      cases t <;> simp at ht
  | cons a rest ih =>
    constructor
    · intro h
      simp only [hasTriple, Bool.or_eq_true, Bool.and_eq_true] at h
      rcases h with ⟨h1, h2⟩ | h1
      · have ha := of_decide_eq_true h1
        have h2' := of_decide_eq_true h2
        obtain ⟨r, hr⟩ := leadNl_ge_two rest h2'
        exact ⟨[], r, by rw [ha, hr]; rfl⟩
      · obtain ⟨t, u, ht⟩ := ih.mp h1
        exact ⟨a :: t, u, by rw [ht]; rfl⟩
    · rintro ⟨t, u, ht⟩
      cases t with
      | nil =>
        simp only [List.nil_append] at ht
        injection ht with h1 h2
        subst h1; subst h2
        simp only [hasTriple, Bool.or_eq_true, Bool.and_eq_true]
        refine Or.inl ⟨by simp, ?_⟩
        rw [leadNl_cons_nl, leadNl_cons_nl]
        simp
        omega
      | cons b t2 =>
        injection ht with h1 h2
        subst h1
        have : hasTriple rest = true := ih.mpr ⟨t2, u, h2⟩
        simp [hasTriple, this]

/-- Containing a triple is monotone under embedding as a contiguous
segment. -/
theorem hasTriple_of_part (a b t u : List Char) (hb : b = t ++ a ++ u)
    (ha : hasTriple a = true) : hasTriple b = true := by
  obtain ⟨t1, u1, ha1⟩ := (hasTriple_iff a).mp ha
  refine (hasTriple_iff b).mpr ⟨t ++ t1, u1 ++ u, ?_⟩
  rw [hb, ha1]
  simp [List.append_assoc]

/-- Output of the newline collapse, entered with `k` pending newlines, has
at most `2 - k` leading newlines and never contains a triple. -/
theorem collapseFrom_no_triple (l : List Char) :
    ∀ k : Nat, leadNl (collapseFrom k l) ≤ 2 - k
      ∧ hasTriple (collapseFrom k l) = false := by
  induction l with
  | nil => intro k; simp [collapseFrom, leadNl, hasTriple]
  | cons a rest ih =>
    intro k
    by_cases ha : a = '\n'
    · subst ha
      by_cases hk : 2 ≤ k
      · rw [collapseFrom, if_pos rfl, if_pos hk]
        obtain ⟨h1, h2⟩ := ih k
        exact ⟨by omega, h2⟩
      · rw [collapseFrom, if_pos rfl, if_neg hk]
        obtain ⟨h1, h2⟩ := ih (k + 1)
        constructor
        · rw [leadNl_cons_nl]
          omega
        · simp only [hasTriple, Bool.or_eq_false_iff, Bool.and_eq_false_iff]
          refine ⟨Or.inr ?_, h2⟩
          simp only [decide_eq_false_iff_not]
          omega
    · rw [collapseFrom, if_neg ha]
      obtain ⟨h1, h2⟩ := ih 0
      constructor
      · rw [leadNl_cons_other _ ha]
        omega
      · simp only [hasTriple, Bool.or_eq_false_iff, Bool.and_eq_false_iff]
        exact ⟨Or.inl (by simp [ha]), h2⟩

/-- The newline collapse is the identity on triple-free input (with the
pending count consistent with the leading newlines). -/
theorem collapseFrom_id (l : List Char) :
    ∀ k : Nat, hasTriple l = false → leadNl l ≤ 2 - k →
      collapseFrom k l = l := by
  induction l with
  | nil => intro k _ _; rfl
  | cons a rest ih =>
    intro k h hlead
    obtain ⟨hrest, hna⟩ := hasTriple_cons_false h
    by_cases ha : a = '\n'
    · subst ha
      rw [leadNl_cons_nl] at hlead
      have hk : ¬2 ≤ k := by omega
      rw [collapseFrom, if_pos rfl, if_neg hk]
      rw [ih (k + 1) hrest (by omega)]
    · rw [collapseFrom, if_neg ha]
      rw [ih 0 hrest (by simpa using hasTriple_false_leadNl rest hrest)]

/-- The whitespace-dropped part of a list is the trimmed list followed by
the trailing whitespace run. -/
theorem dropWhile_eq_jsTrim_append (l : List Char) :
    l.dropWhile isJsWs
      = jsTrim l ++ ((l.dropWhile isJsWs).reverse.takeWhile isJsWs).reverse := by
  conv_lhs => rw [← List.reverse_reverse (l.dropWhile isJsWs),
    ← List.takeWhile_append_dropWhile isJsWs (l.dropWhile isJsWs).reverse]
  rw [List.reverse_append]
  rfl

/-- Every list is its trimmed core surrounded by two whitespace runs. -/
theorem jsTrim_part (l : List Char) :
    ∃ t u, l = t ++ jsTrim l ++ u := by
  refine ⟨l.takeWhile isJsWs,
    ((l.dropWhile isJsWs).reverse.takeWhile isJsWs).reverse, ?_⟩
  calc l = l.takeWhile isJsWs ++ l.dropWhile isJsWs :=
        (List.takeWhile_append_dropWhile _ _).symm
    _ = l.takeWhile isJsWs
        ++ (jsTrim l ++ ((l.dropWhile isJsWs).reverse.takeWhile isJsWs).reverse) := by
        rw [← dropWhile_eq_jsTrim_append]
    _ = l.takeWhile isJsWs ++ jsTrim l
        ++ ((l.dropWhile isJsWs).reverse.takeWhile isJsWs).reverse :=
        (List.append_assoc _ _ _).symm

/-- Trimming preserves triple-freedom. -/
theorem hasTriple_jsTrim (l : List Char) (h : hasTriple l = false) :
    hasTriple (jsTrim l) = false := by
  by_contra hb
  rw [Bool.not_eq_false] at hb
  obtain ⟨t, u, hpart⟩ := jsTrim_part l
  rw [hasTriple_of_part (jsTrim l) l t u hpart hb] at h
  cases h

/-- `dropWhile` leaves an empty list or one whose head fails the
predicate. -/
theorem dropWhile_head_not (p : Char → Bool) (l : List Char) :
    l.dropWhile p = [] ∨ ∃ c r, l.dropWhile p = c :: r ∧ p c = false := by
  induction l with
  | nil => exact Or.inl rfl
  | cons a rest ih =>
    by_cases hp : p a = true
    · rw [List.dropWhile_cons, if_pos hp]
      exact ih
    · rw [List.dropWhile_cons, if_neg hp]
      exact Or.inr ⟨a, rest, rfl, by simpa using hp⟩

/-- `dropWhile` is idempotent. -/
theorem dropWhile_dropWhile (p : Char → Bool) (l : List Char) :
    (l.dropWhile p).dropWhile p = l.dropWhile p := by
  rcases dropWhile_head_not p l with h | ⟨c, r, h, hc⟩
  · rw [h]
    rfl
  · rw [h, List.dropWhile_cons, if_neg (by simp [hc])]

/-- A trimmed list has no leading whitespace left. -/
theorem jsTrim_dropWhile (l : List Char) :
    (jsTrim l).dropWhile isJsWs = jsTrim l := by
  rcases dropWhile_head_not isJsWs l with h | ⟨c, r, h, hc⟩
  · unfold jsTrim
    rw [h]
    rfl
  · have hpart := dropWhile_eq_jsTrim_append l
    cases hjt : jsTrim l with
    | nil => rfl
    | cons d r2 =>
      rw [h, hjt] at hpart
      injection hpart with h1 _
      subst h1
      rw [List.dropWhile_cons, if_neg (by simp [hc])]

/-- `String.prototype.trim` is idempotent. -/
theorem jsTrim_idem (l : List Char) : jsTrim (jsTrim l) = jsTrim l := by
  have hrev : (jsTrim l).reverse
      = (l.dropWhile isJsWs).reverse.dropWhile isJsWs := by
    unfold jsTrim
    rw [List.reverse_reverse]
  calc jsTrim (jsTrim l)
      = (((jsTrim l).dropWhile isJsWs).reverse.dropWhile isJsWs).reverse := rfl
    _ = ((jsTrim l).reverse.dropWhile isJsWs).reverse := by
        rw [jsTrim_dropWhile]
    _ = ((((l.dropWhile isJsWs).reverse.dropWhile isJsWs)).dropWhile isJsWs).reverse := by
        rw [hrev]
    _ = ((l.dropWhile isJsWs).reverse.dropWhile isJsWs).reverse := by
        rw [dropWhile_dropWhile]
    _ = jsTrim l := rfl

/-- Claim C3 (amended): the sanitizer is idempotent on every input free of
the four marker characters backtick, '*', '#', '-'.  On such input the
five pattern passes are the identity, and newline collapsing followed by
trimming is stable under a second application. -/
theorem strip_idem_of_plain (s : String)
    (h : ∀ c ∈ s.data, ¬(c = '`' ∨ c = '*' ∨ c = '#' ∨ c = '-')) :
    stripMarkdownCodeBlocks (stripMarkdownCodeBlocks s)
      = stripMarkdownCodeBlocks s := by
  have h1 : stripMarkdownList s.data = jsTrim (collapseFrom 0 s.data) :=
    stripList_plain s.data h
  have hmem : ∀ c ∈ jsTrim (collapseFrom 0 s.data), c ∈ s.data := fun c hc =>
    mem_collapseFrom 0 s.data c (mem_jsTrim _ c hc)
  have h2 : ∀ c ∈ jsTrim (collapseFrom 0 s.data),
      ¬(c = '`' ∨ c = '*' ∨ c = '#' ∨ c = '-') := fun c hc => h c (hmem c hc)
  have h3 : stripMarkdownList (jsTrim (collapseFrom 0 s.data))
      = jsTrim (collapseFrom 0 (jsTrim (collapseFrom 0 s.data))) :=
    stripList_plain _ h2
  have hTf : hasTriple (collapseFrom 0 s.data) = false :=
    (collapseFrom_no_triple s.data 0).2
  have hTm : hasTriple (jsTrim (collapseFrom 0 s.data)) = false :=
    hasTriple_jsTrim _ hTf
  have h4 : collapseFrom 0 (jsTrim (collapseFrom 0 s.data))
      = jsTrim (collapseFrom 0 s.data) :=
    collapseFrom_id _ 0 hTm (by simpa using hasTriple_false_leadNl _ hTm)
  have h5 : jsTrim (jsTrim (collapseFrom 0 s.data))
      = jsTrim (collapseFrom 0 s.data) := jsTrim_idem _
  show String.mk (stripMarkdownList
      (String.mk (stripMarkdownList s.data)).data)
      = String.mk (stripMarkdownList s.data)
  rw [show (String.mk (stripMarkdownList s.data)).data
      = stripMarkdownList s.data from rfl]
  rw [h1, h3, h4, h5]

/-- Witness for the amended claim C3 on a marker-free input. -/
theorem strip_idem_of_plain_witness :
    (∀ c ∈ ("hello\n\nworld  " : String).data,
      ¬(c = '`' ∨ c = '*' ∨ c = '#' ∨ c = '-'))
    ∧ stripMarkdownCodeBlocks (stripMarkdownCodeBlocks "hello\n\nworld  ")
        = stripMarkdownCodeBlocks "hello\n\nworld  " := by
  have hp : ∀ c ∈ ("hello\n\nworld  " : String).data,
      ¬(c = '`' ∨ c = '*' ∨ c = '#' ∨ c = '-') := by decide
  exact ⟨hp, strip_idem_of_plain _ hp⟩
